import Mathlib

/-!
# Verification of the Upcoming-TV-Shows-for-Kometa core (`UTSK.py`)

A shallow embedding, in Lean 4, of the decision logic of `src/UTSK.py`:

* the air-window filter `find_upcoming_shows`,
* the title matcher (`_normalize`, `_base_show_title`, `_title_matches`),
* the trailer scorer/selector `search_trailer_on_youtube`,
* the date mini-language `format_date`,
* the collection-document builder `create_collection_yaml`.

Modelling conventions:
* Instants are integers measured in hours, so a horizon of `d` days is the
  duration `24 * d` and an offset of `o` hours is `o`.
* Python dictionaries with insertion order are association lists
  `List (String × _)`; updating an existing key keeps its position,
  inserting a fresh key appends.
* Python string truthiness: a missing/empty string is `""`; a missing
  number is `none`; `0` is falsy.
* I/O (HTTP, subprocess, file writes) is abstracted: collaborator results
  (series lists, episode lists, search-result streams) are parameters, and
  document writers return the document value instead of writing it.
-/

/-! ## Generic string helpers (Python `in`, `.lower()`, `.strip()`) -/

/-- `leadsWith n h` is true iff the list `n` is an initial segment of `h`. -/
def leadsWith : List Char → List Char → Bool
  | [], _ => true
  | _ :: _, [] => false
  | a :: as, b :: bs => a == b && leadsWith as bs

/-- `hasSub hay needle`: `needle` occurs contiguously inside `hay`
(Python's `needle in hay` for strings). -/
def hasSub : List Char → List Char → Bool
  | [], n => n.isEmpty
  | c :: rest, n => leadsWith n (c :: rest) || hasSub rest n

/-- Python `needle in hay` on strings. -/
def strContains (hay needle : String) : Bool :=
  hasSub hay.data needle.data

/-- Python `s.lower()` (ASCII model). -/
def lowerStr (s : String) : String :=
  ⟨s.data.map Char.toLower⟩

/-- Python `s.upper()` (ASCII model). -/
def upperStr (s : String) : String :=
  ⟨s.data.map Char.toUpper⟩

/-- Python `s.strip()`: drop whitespace at both ends. -/
def stripChars (s : List Char) : List Char :=
  ((s.dropWhile Char.isWhitespace).reverse.dropWhile Char.isWhitespace).reverse

/-- Python `s.strip()` on strings. -/
def stripStr (s : String) : String :=
  ⟨stripChars s.data⟩

/-! ## Data model: Sonarr records and derived shows -/

/-- An episode record from the tracker (`EpisodeRecord`).  `airDateUtc` is the
UTC air instant in hours, absent when the tracker does not know it. -/
structure Episode where
  seasonNumber : Int
  episodeNumber : Int
  airDateUtc : Option Int
  deriving Repr, DecidableEq

/-- A series record from the tracker (`SeriesRecord`).  Optional fields model
Python's `dict.get` defaults in `find_upcoming_shows`. -/
structure Series where
  id : Int
  title : String
  status : Option String
  monitored : Option Bool
  tvdbId : Option Int
  imdbId : Option String
  year : Option Int
  path : Option String
  deriving Repr, DecidableEq

/-- The derived `Show` record built by `find_upcoming_shows` (the source's
`show_dict`).  `airDate` holds the local air instant (the source also renders
it as a calendar string; the rendering is not needed by any claim). -/
structure TvShow where
  title : String
  tvdbId : Option Int
  path : String
  imdbId : String
  year : Option Int
  airDate : Int
  deriving Repr, DecidableEq

/-! ## Date/time normalizer and air-window filter (`UTSK.py` 90-180) -/

/-- `convert_utc_to_local` from the source: absent timestamps give `none`,
otherwise the UTC instant shifted by the offset (hours). -/
def convert_utc_to_local (utcDate : Option Int) (utcOffset : Int) : Option Int :=
  match utcDate with
  | none => none
  | some t => some (t + utcOffset)

/-- `cutoff_date = datetime.now(timezone.utc) + timedelta(days=future_days)`
(`UTSK.py:108`), in hours from the clock sample this line takes. -/
def cutoffOf (now futureDays : Int) : Int := now + 24 * futureDays

/-- `now_local = datetime.now(timezone.utc) + timedelta(hours=utc_offset)`
(`UTSK.py:109`), in hours from the clock sample this line takes.  Note the
source calls `datetime.now` again here: this is a second, separate sample,
not the one used for the cutoff. -/
def nowLocalOf (now utcOffset : Int) : Int := now + utcOffset

/-- The `show_dict` built at `UTSK.py:166-173` for a series whose first
episode has local air instant `airLocal`. -/
def mkShowDict (s : Series) (airLocal : Int) : TvShow :=
  { title := s.title
    tvdbId := s.tvdbId
    path := s.path.getD ""
    imdbId := s.imdbId.getD ""
    year := s.year
    airDate := airLocal }

/-- Loop body of `find_upcoming_shows` for one series record: either append
the derived show or leave the accumulator unchanged. -/
def upcomingStep (episodesOf : Int → List Episode) (now1 now2 futureDays utcOffset : Int)
    (skipUnmonitored : Bool) (acc : List TvShow) (s : Series) : List TvShow :=
  if s.status = some "upcoming" then
    if skipUnmonitored ∧ ¬ s.monitored.getD true then acc
    else
      match (episodesOf s.id).find? (fun ep => ep.seasonNumber == 1 && ep.episodeNumber == 1) with
      | none => acc
      | some ep =>
        match ep.airDateUtc with
        | none => acc
        | some a =>
          match convert_utc_to_local (some a) utcOffset with
          | none => acc
          | some airLocal =>
            if nowLocalOf now2 utcOffset < airLocal ∧ airLocal ≤ cutoffOf now1 futureDays then
              acc ++ [mkShowDict s airLocal]
            else acc
  else acc

/-- `find_upcoming_shows` (`UTSK.py:103-180`).  The tracker call
`get_sonarr_series` is the parameter `allSeries`, `get_sonarr_episodes` is
`episodesOf`.  Lines 108 and 109 each call `datetime.now(timezone.utc)`, so
the cutoff and the comparison baseline come from two successive clock
samples: `now1` is the sample line 108 takes for `cutoff_date` and `now2`
the one line 109 takes for `now_local`.  Returns the pair
`(upcoming_shows, skipped_shows)` exactly as the source does. -/
def find_upcoming_shows (allSeries : List Series) (episodesOf : Int → List Episode)
    (now1 now2 futureDays utcOffset : Int) (skipUnmonitored : Bool) :
    List TvShow × List TvShow :=
  (allSeries.foldl (upcomingStep episodesOf now1 now2 futureDays utcOffset skipUnmonitored) [], [])

/-! Specification-side predicate for claim C1, written from the spec's words:
a `Show` is produced iff status is `upcoming`, (not `skipUnmonitored` or
monitored, missing flag treated as monitored), a season-1/episode-1 episode
exists (first match), its air timestamp is known, and its local instant lies
in `(nowLocal, cutoff]`. -/

/-- Spec-side: the first season-1/episode-1 episode of a series, by iteration
order. -/
def firstS1E1 (episodesOf : Int → List Episode) (s : Series) : Option Episode :=
  (episodesOf s.id).find? (fun ep => ep.seasonNumber == 1 && ep.episodeNumber == 1)

/-- Spec-side: does `find_upcoming_shows` produce a `Show` for this series? -/
def producesShow (episodesOf : Int → List Episode) (now1 now2 futureDays utcOffset : Int)
    (skipUnmonitored : Bool) (s : Series) : Bool :=
  s.status = some "upcoming" &&
  (!skipUnmonitored || s.monitored.getD true) &&
  match firstS1E1 episodesOf s with
  | none => false
  | some ep =>
    match ep.airDateUtc with
    | none => false
    | some a =>
      nowLocalOf now2 utcOffset < a + utcOffset && a + utcOffset ≤ cutoffOf now1 futureDays

/-- Spec-side: the `Show` produced for a series (meaningful only when
`producesShow` holds; the dead branches return a junk record). -/
def showOf (episodesOf : Int → List Episode) (utcOffset : Int) (s : Series) : TvShow :=
  match firstS1E1 episodesOf s with
  | none => mkShowDict s 0
  | some ep =>
    match ep.airDateUtc with
    | none => mkShowDict s 0
    | some a => mkShowDict s (a + utcOffset)

/-! ## Title matcher (`UTSK.py` 182-193) -/

/-- Character class `[a-z0-9]` of `_normalize`'s regex. -/
def isLowerAlnum (c : Char) : Bool :=
  ('a' ≤ c && c ≤ 'z') || ('0' ≤ c && c ≤ '9')

/-- One pass of `re.sub(r'[^a-z0-9]+', ' ', s)`: each maximal run of
characters outside `[a-z0-9]` becomes a single space.  Fuel-driven recursion;
fuel equal to the list length never runs out. -/
def collapseRunsF : Nat → List Char → List Char
  | 0, s => s
  | _ + 1, [] => []
  | n + 1, c :: rest =>
    if isLowerAlnum c then c :: collapseRunsF n rest
    else ' ' :: collapseRunsF n (rest.dropWhile (fun x => !isLowerAlnum x))

/-- `_normalize` from the source: lower-case, collapse every run of
non-alphanumerics to one space, trim. -/
def normalize_str (s : String) : String :=
  let l := (lowerStr s).data
  ⟨stripChars (collapseRunsF l.length l)⟩

/-- An anchored match of the regex `\s*[\(\[]\d{4}[\)\]]\s*` at the head of
the list (greedy on both whitespace runs).  Returns the remainder after the
match, or `none` if the regex does not match here. -/
def matchYearTok (s : List Char) : Option (List Char) :=
  match s.dropWhile Char.isWhitespace with
  | b :: d1 :: d2 :: d3 :: d4 :: e :: rest =>
    if (b = '(' ∨ b = '[') ∧ d1.isDigit ∧ d2.isDigit ∧ d3.isDigit ∧ d4.isDigit ∧
        (e = ')' ∨ e = ']') then
      some (rest.dropWhile Char.isWhitespace)
    else none
  | _ => none

/-- `re.sub(r'\s*[\(\[]\d{4}[\)\]]\s*', ' ', title)`: scan left to right,
replacing each (non-overlapping, leftmost) match by one space.  Fuel-driven;
fuel equal to the list length never runs out because every match consumes at
least six characters. -/
def subYearToksF : Nat → List Char → List Char
  | 0, s => s
  | _ + 1, [] => []
  | n + 1, c :: rest =>
    match matchYearTok (c :: rest) with
    | some rest2 => ' ' :: subYearToksF n rest2
    | none => c :: subYearToksF n rest

/-- `_base_show_title` from the source: substitute the year-token regex by a
space everywhere, then `strip()`. -/
def base_show_title (t : String) : String :=
  ⟨stripChars (subYearToksF t.data.length t.data)⟩

/-- `_title_matches` from the source: the normalized base show title must be
non-empty and occur as a substring of the normalized video title. -/
def title_matches (videoTitle showTitle : String) : Bool :=
  let base := normalize_str (base_show_title showTitle)
  base ≠ "" && strContains (normalize_str videoTitle) base

/-- `yearTokFree s`: the year-token regex matches at no position of `s`. -/
def yearTokFree : List Char → Bool
  | [] => true
  | c :: rest => (matchYearTok (c :: rest)).isNone && yearTokFree rest

/-! ## Trailer scorer/selector (`UTSK.py` 195-309) -/

/-- A flat search-backend result (`VideoCandidate`): the fields the source
reads from each JSON line, with Python's `or ''` defaults already applied to
`title` and `id` (a missing field is `""`) and the raw `uploader` kept (the
source defaults it to `"Unknown"` when falsy). -/
structure Candidate where
  id : String
  title : String
  uploader : String
  duration : Option Int
  deriving Repr, DecidableEq

/-- The fixed denylist of non-trailer keywords (`avoid_keywords`). -/
def avoid_keywords : List String :=
  ["reaction", "review", "breakdown", "analysis", "explained", "easter eggs", "theory",
   "predictions", "recap", "commentary", "first time watching", "blind reaction",
   "behind the scenes", "fan made", "concept", "music video", "news", "interview"]

/-- The fixed official studio/streamer allow-list (`official_channels`). -/
def official_channels : List String :=
  ["netflix", "hbo", "max", "amazon", "prime video", "disney", "marvel", "lucasfilm",
   "apple tv", "paramount", "showtime", "starz", "fx", "amc", "peacock", "universal",
   "sony pictures", "warner bros", "20th century", "lionsgate", "bbc", "itv", "channel 4", "hulu"]

/-- `info.get('uploader') or 'Unknown'`: a falsy uploader becomes `"Unknown"`. -/
def uploaderOf (c : Candidate) : String :=
  if c.uploader = "" then "Unknown" else c.uploader

/-- The duration filter `if dur and not (10 <= float(dur) <= 900): continue`:
rejection requires a *truthy* duration (Python treats `0` as falsy) outside
the closed interval `[10, 900]`. -/
def durationRejects (dur : Option Int) : Bool :=
  match dur with
  | none => false
  | some d => decide (d ≠ 0) && !(decide (10 ≤ d) && decide (d ≤ 900))

/-- All per-candidate filters of the scanning loop, in source order: missing
title/id, skip-channel uploader substring, denylist keyword in the lowered
title, duration bounds, and the title match. -/
def passesFilters (skipChannels : List String) (showTitle : String) (c : Candidate) : Bool :=
  decide (c.title ≠ "") && decide (c.id ≠ "") &&
  !(skipChannels.any fun ch => strContains (lowerStr (uploaderOf c)) (lowerStr ch)) &&
  !(avoid_keywords.any fun k => strContains (lowerStr c.title) k) &&
  !(durationRejects c.duration) &&
  title_matches c.title showTitle

/-- The score of a surviving candidate: +3 `official` in title, +2 `trailer`,
+1 `teaser`, +3 official channel substring in the uploader, +2 a truthy
year's decimal form in the title. -/
def scoreOf (year : Option Int) (c : Candidate) : Nat :=
  (if strContains (lowerStr c.title) "official" then 3 else 0) +
  (if strContains (lowerStr c.title) "trailer" then 2 else 0) +
  (if strContains (lowerStr c.title) "teaser" then 1 else 0) +
  (if official_channels.any (fun ch => strContains (lowerStr (uploaderOf c)) ch) then 3 else 0) +
  (match year with
   | some y => if y ≠ 0 ∧ strContains (lowerStr c.title) (toString y) then 2 else 0
   | none => 0)

/-- The running-best update for one surviving candidate: only a strictly
greater score replaces `(best, best_score)`. -/
def scoreStep (year : Option Int) (best : Option Candidate × Int) (c : Candidate) :
    Option Candidate × Int :=
  if (scoreOf year c : Int) > best.2 then (some c, (scoreOf year c : Int)) else best

/-- The whole loop body for one candidate line: filter, then the running-best
update. -/
def candStep (skipChannels : List String) (showTitle : String) (year : Option Int)
    (best : Option Candidate × Int) (c : Candidate) : Option Candidate × Int :=
  if passesFilters skipChannels showTitle c then scoreStep year best c else best

/-- `search_trailer_on_youtube` (`UTSK.py:195-309`).  The subprocess search
is abstracted: `results` is the ordered stream of per-variant candidate lists
(a failed/skipped variant contributes `[]`).  `best_score` starts at `-1`;
the returned value is the winning candidate (the source wraps it into a
result dict whose fields are projections of the candidate). -/
def search_trailer_on_youtube (showTitle : String) (year : Option Int)
    (skipChannels : List String) (results : List (List Candidate)) : Option Candidate :=
  (results.foldl (fun b lst => lst.foldl (candStep skipChannels showTitle year) b)
    ((none : Option Candidate), (-1 : Int))).1

/-- Spec-side: the union (in stream order) of all filter-surviving candidates
across all query variants. -/
def survivors (skipChannels : List String) (showTitle : String)
    (results : List (List Candidate)) : List Candidate :=
  results.flatten.filter (passesFilters skipChannels showTitle)

/-- Spec-side: one step of first-seen argmax selection. -/
def firstArgmaxStep (f : Candidate → Nat) (b : Option Candidate) (c : Candidate) :
    Option Candidate :=
  match b with
  | none => some c
  | some y => if f c > f y then some c else b

/-- Spec-side, from the claim's words: the argmax by score over a candidate
list, ties broken in favor of the first-seen candidate. -/
def firstArgmax (f : Candidate → Nat) (l : List Candidate) : Option Candidate :=
  l.foldl (firstArgmaxStep f) none

/-- A concrete surviving candidate for the C4 witness. -/
def goodCandidate : Candidate :=
  { id := "abc123", title := "Foo Trailer", uploader := "Netflix", duration := some 60 }

/-- Spec-side, from the claim C8's words: reject iff the duration is known
and lies outside `[10, 900]`. -/
def claimDurationRejects (dur : Option Int) : Bool :=
  match dur with
  | none => false
  | some d => !(decide (10 ≤ d) && decide (d ≤ 900))

/-! ## Date formatting mini-language (`UTSK.py` 385-428)

`format_date(yyyy_mm_dd, date_format, capitalize)` parses its first argument
with `strptime("%Y-%m-%d")`; we model the parsed value directly as a
`PyDate` record and render the fallback string canonically (`isoOf`).
`strftime` is modelled for the directives the mapping can produce plus the
glibc behaviour the source relies on: unknown directives pass through
unchanged, and a format ending in a bare `%` (or `%-`) raises `ValueError`,
which is the `none` result of `renderFmt` and triggers the fallback. -/

/-- A parsed `%Y-%m-%d` calendar date. -/
structure PyDate where
  year : Nat
  month : Nat
  day : Nat
  deriving Repr, DecidableEq

/-- Zero-padded two-digit rendering (`%m`, `%d`, `%y`). -/
def pad2 (n : Nat) : String :=
  if n < 10 then "0" ++ toString n else toString n

/-- The canonical `yyyy-mm-dd` string of a date (the original input of
`format_date`, returned unmodified on fallback). -/
def isoOf (d : PyDate) : String :=
  toString d.year ++ "-" ++ pad2 d.month ++ "-" ++ pad2 d.day

/-- `%B` month names (C locale). -/
def monthNames : List String :=
  ["January", "February", "March", "April", "May", "June", "July", "August",
   "September", "October", "November", "December"]

/-- `%b` abbreviated month names (C locale). -/
def monthAbbrevs : List String :=
  ["Jan", "Feb", "Mar", "Apr", "May", "Jun", "Jul", "Aug", "Sep", "Oct", "Nov", "Dec"]

/-- `%A` weekday names, indexed by `dayOfWeek` (0 = Sunday). -/
def weekdayNames : List String :=
  ["Sunday", "Monday", "Tuesday", "Wednesday", "Thursday", "Friday", "Saturday"]

/-- `%a` abbreviated weekday names, indexed by `dayOfWeek` (0 = Sunday). -/
def weekdayAbbrevs : List String :=
  ["Sun", "Mon", "Tue", "Wed", "Thu", "Fri", "Sat"]

/-- Day of week by Sakamoto's method, 0 = Sunday. -/
def dayOfWeek (d : PyDate) : Nat :=
  let t := [0, 3, 2, 5, 0, 3, 5, 1, 4, 6, 2, 4]
  let y := if d.month < 3 then d.year - 1 else d.year
  (y + y / 4 - y / 100 + y / 400 + t.getD (d.month - 1) 0 + d.day) % 7

/-- The output of one known single-letter `strftime` directive. -/
def directiveOut (d : PyDate) : Char → Option String
  | 'b' => some (monthAbbrevs.getD (d.month - 1) "")
  | 'B' => some (monthNames.getD (d.month - 1) "")
  | 'm' => some (pad2 d.month)
  | 'A' => some (weekdayNames.getD (dayOfWeek d) "")
  | 'a' => some (weekdayAbbrevs.getD (dayOfWeek d) "")
  | 'd' => some (pad2 d.day)
  | 'Y' => some (toString d.year)
  | 'y' => some (pad2 (d.year % 100))
  | '%' => some "%"
  | _ => none

/-- `strftime` over the substituted format: renders known directives,
passes unknown `%x` pairs through, and fails (`none`, Python `ValueError`)
on a trailing bare `%` or `%-`. -/
def renderFmt (d : PyDate) : List Char → Option (List Char)
  | [] => some []
  | ['%'] => none
  | '%' :: '-' :: 'm' :: rest => (renderFmt d rest).map (fun r => (toString d.month).data ++ r)
  | '%' :: '-' :: [] => none
  | '%' :: c :: rest =>
    match directiveOut d c with
    | some out => (renderFmt d rest).map (fun r => out.data ++ r)
    | none => (renderFmt d rest).map (fun r => '%' :: c :: r)
  | c :: rest => (renderFmt d rest).map (fun r => c :: r)

/-- Python `s.replace(pat, rep)`: every non-overlapping occurrence, scanning
left to right.  Fuel-driven; fuel equal to `s.length` never runs out for a
non-empty `pat` (an empty `pat` never arises below and is left alone). -/
def replaceAllF : Nat → List Char → List Char → List Char → List Char
  | 0, s, _, _ => s
  | n + 1, s, pat, rep =>
    match s with
    | [] => []
    | c :: rest =>
      if pat ≠ [] ∧ leadsWith pat (c :: rest) = true then
        rep ++ replaceAllF n ((c :: rest).drop pat.length) pat rep
      else c :: replaceAllF n rest pat rep

/-- Python `s.replace(pat, rep)` on strings. -/
def pyReplace (s pat rep : String) : String :=
  ⟨replaceAllF s.data.length s.data pat.data rep.data⟩

/-- The `format_mapping` dict of the source, in insertion order.  The key
`"d"` maps to the day's decimal form directly; all others map to `strftime`
directives. -/
def format_mapping (d : PyDate) : List (String × String) :=
  [("mmm", "%b"), ("mmmm", "%B"), ("mm", "%m"), ("m", "%-m"),
   ("dddd", "%A"), ("ddd", "%a"), ("dd", "%d"), ("d", toString d.day),
   ("yyyy", "%Y"), ("yyy", "%Y"), ("yy", "%y"), ("y", "%y")]

/-- First-match lookup in an association list of strings, defaulting to `""`
(the source indexes a dict whose key is always present). -/
def lookupStr : List (String × String) → String → String
  | [], _ => ""
  | (k, v) :: rest, key => if k = key then v else lookupStr rest key

/-- Stable insertion of a string into a list sorted by length, descending
(equal lengths keep insertion order, as Python's stable `sorted` does). -/
def insertLenDesc (x : String) : List String → List String
  | [] => [x]
  | y :: ys => if y.length > x.length then y :: insertLenDesc x ys else x :: y :: ys

/-- `sorted(keys, key=len, reverse=True)`: stable sort by length, longest
first. -/
def sortLenDesc : List String → List String
  | [] => []
  | x :: xs => insertLenDesc x (sortLenDesc xs)

/-- The temporary marker `f"@@{i}@@"` for the `i`-th pattern. -/
def markerStr (i : Nat) : String :=
  "@@" ++ toString i ++ "@@"

/-- One step of the first pass: if the pattern occurs in the working format,
substitute it by its marker and record the marker's final replacement. -/
def firstPassStep (mapping : List (String × String))
    (acc : String × List (String × String)) (ip : Nat × String) :
    String × List (String × String) :=
  if strContains acc.1 ip.2 then
    (pyReplace acc.1 ip.2 (markerStr ip.1), acc.2 ++ [(markerStr ip.1, lookupStr mapping ip.2)])
  else acc

/-- Both substitution passes of `format_date`: tokens to markers
(longest-first), then markers to `strftime` text. -/
def substitutedFormat (d : PyDate) (date_format : String) : String :=
  let mapping := format_mapping d
  let patterns := sortLenDesc (mapping.map Prod.fst)
  let step1 := patterns.enum.foldl (firstPassStep mapping) (date_format, [])
  step1.2.foldl (fun f mr => pyReplace f mr.1 mr.2) step1.1

/-- The `strftime` call of `format_date`: `none` models the caught
`ValueError`. -/
def format_date_core (d : PyDate) (date_format : String) : Option String :=
  (renderFmt d (substitutedFormat d date_format).data).map (fun l => ⟨l⟩)

/-- `format_date` (`UTSK.py:385-428`): substitute, render, optionally
upper-case; on a render error return the original date string unmodified
(not upper-cased). -/
def format_date (d : PyDate) (date_format : String) (capitalize : Bool) : String :=
  match format_date_core d date_format with
  | some r => if capitalize then upperStr r else r
  | none => isoOf d

/-! ## Collection document builder (`UTSK.py` 507-625)

Python dicts preserve insertion order; we model them as association lists
where updating an existing key keeps its position and value assignment to a
fresh key appends (`dinsert`).  The YAML dump (`sort_keys=False`) preserves
that order, so the emitted document is the nested value itself; the file
write is abstracted away. -/

/-- A YAML scalar as the source produces it.  `qstr` is the `QuotedString`
subclass rendered with explicit double quotes. -/
inductive CVal where
  | str : String → CVal
  | qstr : String → CVal
  | int : Int → CVal
  | bool : Bool → CVal
  deriving Repr, DecidableEq

/-- A nested YAML document value with ordered mapping keys. -/
inductive YVal where
  | scalar : CVal → YVal
  | map : List (String × YVal) → YVal

/-- The plain text of a scalar (used where the source treats a config value
as a string, e.g. the collection name or `QuotedString(value)`). -/
def cvalText : CVal → String
  | .str s => s
  | .qstr s => s
  | .int n => toString n
  | .bool b => if b then "True" else "False"

/-- `QuotedString(value)` applied to a config value. -/
def quoteVal (v : CVal) : CVal :=
  .qstr (cvalText v)

/-- Does the ordered dict have this key? -/
def hasKey (d : List (String × CVal)) (k : String) : Bool :=
  d.any (fun p => decide (p.1 = k))

/-- First-match lookup in the ordered dict. -/
def dlookup : List (String × CVal) → String → Option CVal
  | [], _ => none
  | (k', v) :: rest, k => if k' = k then some v else dlookup rest k

/-- Python `d[k] = v` on an insertion-ordered dict: update in place if the
key exists, else append. -/
def dinsert (d : List (String × CVal)) (k : String) (v : CVal) : List (String × CVal) :=
  if hasKey d k then d.map (fun p => if p.1 = k then (k, v) else p)
  else d ++ [(k, v)]

/-- Stable ascending insertion for `sorted(tvdb_ids)`. -/
def insertIntAsc (x : Int) : List Int → List Int
  | [] => [x]
  | y :: ys => if x ≤ y then x :: y :: ys else y :: insertIntAsc x ys

/-- Python `sorted` on an integer list (ascending, stable). -/
def sortIntsAsc : List Int → List Int
  | [] => []
  | x :: xs => insertIntAsc x (sortIntsAsc xs)

/-- The top-level configuration slice `create_collection_yaml` reads: the
`collection_upcoming_shows` section (absent means `{}`) and
`future_days_upcoming_shows` (absent means `30`). -/
structure KometaConfig where
  collection_upcoming_shows : Option (List (String × CVal))
  future_days_upcoming_shows : Option Int

/-- The raw `collection_upcoming_shows` section. -/
def collectionCfgRaw (config : KometaConfig) : List (String × CVal) :=
  config.collection_upcoming_shows.getD []

/-- `collection_config.pop("collection_name", "Upcoming Shows")`: the name.  -/
def collectionNameOf (config : KometaConfig) : String :=
  match dlookup (collectionCfgRaw config) "collection_name" with
  | some v => cvalText v
  | none => "Upcoming Shows"

/-- The collection config after popping `collection_name`. -/
def collectionCfgOf (config : KometaConfig) : List (String × CVal) :=
  (collectionCfgRaw config).filter (fun p => p.1 ≠ "collection_name")

/-- The templated summary string mentioning the horizon-day count. -/
def summaryOf (config : KometaConfig) : String :=
  "Shows with their first episode premiering within " ++
    toString (config.future_days_upcoming_shows.getD 30) ++ " days"

/-- `[s['tvdbId'] for s in shows if s.get('tvdbId')]`: the truthy external
ids, in show order (Python treats `0` and `None` as falsy). -/
def truthyTvdbIds (shows : List TvShow) : List Int :=
  shows.filterMap (fun s =>
    match s.tvdbId with
    | some n => if n ≠ 0 then some n else none
    | none => none)

/-- `", ".join(str(i) for i in sorted(tvdb_ids))`. -/
def tvdbIdsStrOf (shows : List TvShow) : String :=
  String.intercalate ", " ((sortIntsAsc (truthyTvdbIds shows)).map toString)

/-- The keys the `ordered_collection` loop treats specially. -/
def reservedKeys : List String :=
  ["summary", "sort_title", "sync_mode", "tvdb_show"]

/-- The value stored for one collection-config entry (`sort_title` is
wrapped in `QuotedString`). -/
def cfgEntryVal (p : String × CVal) : CVal :=
  if p.1 = "sort_title" then quoteVal p.2 else p.2

/-- `collection_data` (`UTSK.py:584-599`): summary first, then every config
entry by dict assignment (`sort_title` wrapped in `QuotedString`), then
`sync_mode` and `tvdb_show`. -/
def cdataOf (cfg : List (String × CVal)) (summary idsStr : String) :
    List (String × CVal) :=
  dinsert
    (dinsert
      (cfg.foldl (fun dacc p => dinsert dacc p.1 (cfgEntryVal p))
        [("summary", CVal.str summary)])
      "sync_mode" (CVal.str "sync"))
    "tvdb_show" (CVal.str idsStr)

/-- The ordered body of the main collection document (`UTSK.py:601-616`):
re-emit `collection_data` as `ordered_collection` in the fixed order.  The
`.getD` defaults model Python's always-successful `d[k]` indexing of keys
that are guaranteed present. -/
def collectionBody (cfg : List (String × CVal)) (summary idsStr : String) :
    List (String × CVal) :=
  ([("summary", (dlookup (cdataOf cfg summary idsStr) "summary").getD (CVal.str summary))] ++
   (if hasKey (cdataOf cfg summary idsStr) "sort_title" then
      [("sort_title", (dlookup (cdataOf cfg summary idsStr) "sort_title").getD (CVal.str ""))]
    else []) ++
   (cdataOf cfg summary idsStr).filter (fun p => !(decide (p.1 ∈ reservedKeys)))) ++
  [("sync_mode", (dlookup (cdataOf cfg summary idsStr) "sync_mode").getD (CVal.str "sync")),
   ("tvdb_show", (dlookup (cdataOf cfg summary idsStr) "tvdb_show").getD (CVal.str idsStr))]

/-- Wrap a scalar body as YAML mapping entries. -/
def liftScalars (body : List (String × CVal)) : List (String × YVal) :=
  body.map (fun p => (p.1, YVal.scalar p.2))

/-- The fixed document for an empty show list (`UTSK.py:541-559`). -/
def emptyShowsDoc (name : String) : YVal :=
  .map [("collections", .map [(name, .map
    [("plex_search", .map [("all", .map [("label", .scalar (.str name))])]),
     ("item_label.remove", .scalar (.str name)),
     ("smart_label", .scalar (.str "random")),
     ("build_collection", .scalar (.bool false))])])]

/-- The fixed document when no show carries a truthy id (`UTSK.py:561-579`). -/
def noIdsDoc (name : String) : YVal :=
  .map [("collections", .map [(name, .map
    [("plex_search", .map [("all", .map [("label", .scalar (.str name))])]),
     ("non_item_remove_label", .scalar (.str name)),
     ("build_collection", .scalar (.bool false))])])]

/-- `create_collection_yaml` (`UTSK.py:507-625`), returning the document it
would dump. -/
def create_collection_yaml (shows : List TvShow) (config : KometaConfig) : YVal :=
  if shows = [] then emptyShowsDoc (collectionNameOf config)
  else if truthyTvdbIds shows = [] then noIdsDoc (collectionNameOf config)
  else
    .map [("collections", .map [(collectionNameOf config,
      .map (liftScalars (collectionBody (collectionCfgOf config) (summaryOf config)
        (tvdbIdsStrOf shows))))])]

/-- Spec-side body for the amended claim C3, written from its words: summary
first (the config's own `summary` value if the section defines one, else the
templated string), then `sort_title` quoted if present in the config, then
every other config key except the reserved four in original order, then
`sync_mode: "sync"`, then `tvdb_show`. -/
def spec_collection_body (cfg : List (String × CVal)) (summary idsStr : String) :
    List (String × CVal) :=
  [("summary", (dlookup cfg "summary").getD (CVal.str summary))] ++
  (match dlookup cfg "sort_title" with
   | some v => [("sort_title", quoteVal v)]
   | none => []) ++
  cfg.filter (fun p => !(decide (p.1 ∈ reservedKeys))) ++
  [("sync_mode", CVal.str "sync"), ("tvdb_show", CVal.str idsStr)]

/-- The shape `collection_data` takes after the config fold: the entries of
`cfg` other than `summary`, with `sort_title` quoted. -/
def mOf (cfg : List (String × CVal)) : List (String × CVal) :=
  (cfg.filter (fun p => p.1 ≠ "summary")).map (fun p => (p.1, cfgEntryVal p))

/-- A concrete show for the C3 counterexample and witness. -/
def exShow : TvShow :=
  { title := "A", tvdbId := some 5, path := "", imdbId := "", year := none, airDate := 0 }

/-- A collection config whose section defines its own `summary` key. -/
def exConfigSummary : KometaConfig :=
  { collection_upcoming_shows := some [("summary", CVal.str "custom")]
    future_days_upcoming_shows := some 30 }

/-- An ordinary collection config for the C3 witness. -/
def exConfigPlain : KometaConfig :=
  { collection_upcoming_shows := some
      [("collection_name", CVal.str "Up Next"),
       ("sort_title", CVal.str "!010 Up Next"),
       ("schedule", CVal.str "daily")]
    future_days_upcoming_shows := some 14 }

/-! ## Theorems: helper lemmas and claim verdicts -/

theorem upcomingStep_eq (episodesOf : Int → List Episode) (now1 now2 futureDays utcOffset : Int)
    (skipUnmonitored : Bool) (acc : List TvShow) (s : Series) :
    upcomingStep episodesOf now1 now2 futureDays utcOffset skipUnmonitored acc s =
      acc ++ (if producesShow episodesOf now1 now2 futureDays utcOffset skipUnmonitored s
              then [showOf episodesOf utcOffset s] else []) := by
  unfold upcomingStep producesShow showOf firstS1E1 convert_utc_to_local
  by_cases hst : s.status = some "upcoming"
  · by_cases hm : skipUnmonitored ∧ ¬ s.monitored.getD true
    · have hb : (!skipUnmonitored || s.monitored.getD true) = false := by
        rcases hm with ⟨h1, h2⟩
        simp [h1, h2]
      simp [hst, hm, hb]
    · have hb : (!skipUnmonitored || s.monitored.getD true) = true := by
        by_cases h1 : skipUnmonitored
        · have h2 : s.monitored.getD true := by
            by_contra hc
            exact hm ⟨h1, hc⟩
          simp [h2]
        · simp [h1]
      cases hep : (episodesOf s.id).find? (fun ep => ep.seasonNumber == 1 && ep.episodeNumber == 1) with
      | none => simp [hst, hm, hb, hep]
      | some ep =>
        cases hair : ep.airDateUtc with
        | none => simp [hst, hm, hb, hep, hair]
        | some a =>
          by_cases hw : nowLocalOf now2 utcOffset < a + utcOffset ∧ a + utcOffset ≤ cutoffOf now1 futureDays
          · simp [hst, hm, hb, hep, hair, hw, hw.1, hw.2]
            intro h1
            by_contra hc
            exact hm ⟨h1, hc⟩
          · have hw' : (decide (nowLocalOf now2 utcOffset < a + utcOffset) &&
                decide (a + utcOffset ≤ cutoffOf now1 futureDays)) = false := by
              by_contra hc
              rw [Bool.not_eq_false] at hc
              simp only [Bool.and_eq_true, decide_eq_true_eq] at hc
              exact hw hc
            simp [hst, hm, hb, hep, hair, hw, hw']
  · simp [hst]

theorem foldl_upcomingStep (episodesOf : Int → List Episode) (now1 now2 futureDays utcOffset : Int)
    (skipUnmonitored : Bool) (l : List Series) (init : List TvShow) :
    l.foldl (upcomingStep episodesOf now1 now2 futureDays utcOffset skipUnmonitored) init =
      init ++ ((l.filter (producesShow episodesOf now1 now2 futureDays utcOffset skipUnmonitored)).map
        (showOf episodesOf utcOffset)) := by
  induction l generalizing init with
  | nil => simp
  | cons s rest ih =>
    rw [List.foldl_cons, ih, upcomingStep_eq]
    by_cases h : producesShow episodesOf now1 now2 futureDays utcOffset skipUnmonitored s = true
    · simp [h, List.filter_cons]
    · rw [Bool.not_eq_true] at h
      simp [h, List.filter_cons]

/-- C1: for every series list and episode mapping, `find_upcoming_shows`
produces a `Show` for a series iff the spec's conditions hold (status
`upcoming`; not `skipUnmonitored` or monitored, missing flag monitored;
a first season-1/episode-1 episode with a known air timestamp whose local
instant lies in `(nowLocal, cutoff]`), and the output list preserves the
input series order: it is exactly the in-order filter of the input mapped to
the derived shows. -/
theorem C1_find_upcoming_iff (allSeries : List Series) (episodesOf : Int → List Episode)
    (now1 now2 futureDays utcOffset : Int) (skipUnmonitored : Bool) :
    (find_upcoming_shows allSeries episodesOf now1 now2 futureDays utcOffset skipUnmonitored).1 =
      (allSeries.filter (producesShow episodesOf now1 now2 futureDays utcOffset skipUnmonitored)).map
        (showOf episodesOf utcOffset) := by
  unfold find_upcoming_shows
  rw [foldl_upcomingStep]
  simp

/-- C7 (amended): the cutoff and the comparison baseline are computed from
two successive `datetime.now(timezone.utc)` samples (`UTSK.py:108` and
`:109` each call the clock), so their difference is the horizon duration
minus the offset duration *plus the drift between the two samples*
(`24 * futureDays - utcOffset + (now1 - now2)` hours), and it equals the
claimed skew-free value exactly when the two samples coincide.  The skew
between the cutoff and the comparison baseline is precisely the elapsed
time between the two calls. -/
theorem C7_two_sample_skew (now1 now2 futureDays utcOffset : Int) :
    cutoffOf now1 futureDays - nowLocalOf now2 utcOffset =
      24 * futureDays - utcOffset + (now1 - now2) ∧
    (cutoffOf now1 futureDays - nowLocalOf now2 utcOffset = 24 * futureDays - utcOffset ↔
      now1 = now2) := by
  unfold cutoffOf nowLocalOf
  constructor
  · omega
  · omega

/-- Counterexample to C7 as stated: with the line-108 sample one hour before
the line-109 sample (`now1 = 0`, `now2 = 1`), a 1-day horizon and zero
offset, the cutoff minus the comparison baseline is `23` hours, not the
`24 * 1 - 0 = 24` the single-sample claim requires — the two clock reads do
skew the window. -/
theorem C7_counterexample :
    cutoffOf 0 1 - nowLocalOf 1 0 = 23 ∧ (23 : Int) ≠ 24 * 1 - 0 := by
  constructor
  · decide
  · decide

/-- C10: the skipped-shows component of `find_upcoming_shows`'s result is
always the empty list: unmonitored series are silently dropped, never
recorded. -/
theorem C10_skipped_always_empty (allSeries : List Series) (episodesOf : Int → List Episode)
    (now1 now2 futureDays utcOffset : Int) (skipUnmonitored : Bool) :
    (find_upcoming_shows allSeries episodesOf now1 now2 futureDays utcOffset skipUnmonitored).2 = [] :=
  rfl

theorem subYearToksF_of_tokFree (s : List Char) (h : yearTokFree s = true) :
    ∀ n : Nat, subYearToksF n s = s := by
  induction s with
  | nil => intro n; cases n <;> rfl
  | cons c rest ih =>
    intro n
    cases n with
    | zero => rfl
    | succ m =>
      unfold yearTokFree at h
      rw [Bool.and_eq_true, Option.isNone_iff_eq_none] at h
      unfold subYearToksF
      rw [h.1, ih h.2 m]

/-- C6 (amended): `base_show_title` replaces every parenthetical or bracketed
4-digit year token, together with the whitespace around it, by a single space
— wherever it occurs in the title and however many tokens there are — and
then trims the result; a title containing no such token is returned
unchanged apart from trimming.  (The original claim said only one trailing
token is stripped and interior tokens survive; the source's `re.sub`
substitutes at every position.) -/
theorem C6_base_title_amended :
    (∀ t : String, yearTokFree t.data = true → base_show_title t = stripStr t) ∧
    base_show_title "Foo (2025) Bar" = "Foo Bar" ∧
    base_show_title "Foo (2024) (2025)" = "Foo" ∧
    base_show_title "Foo (2025)" = "Foo" := by
  refine ⟨fun t h => ?_, by decide, by decide, by decide⟩
  unfold base_show_title stripStr
  rw [subYearToksF_of_tokFree t.data h]

/-- Witness for C6's amended theorem at a concrete token-free title. -/
theorem C6_base_title_amended_witness :
    base_show_title "Foo Bar" = stripStr "Foo Bar" :=
  C6_base_title_amended.1 "Foo Bar" (by decide)

/-- Counterexample to C6 as stated: `"Foo (2025) Bar"` carries no trailing
year token, so by the claim it should be returned unchanged; the code removes
the interior token and yields `"Foo Bar"`. -/
theorem C6_counterexample :
    base_show_title "Foo (2025) Bar" = "Foo Bar" ∧ "Foo Bar" ≠ "Foo (2025) Bar" := by
  constructor
  · decide
  · decide

theorem foldl_if_filter {α β : Type} (p : α → Bool) (g : β → α → β) (l : List α) (b : β) :
    l.foldl (fun acc x => if p x then g acc x else acc) b = (l.filter p).foldl g b := by
  induction l generalizing b with
  | nil => rfl
  | cons x xs ih =>
    by_cases h : p x <;> simp [List.filter_cons, h, ih]

theorem foldl_foldl_flatten {α β : Type} (g : β → α → β) (results : List (List α)) (b : β) :
    results.foldl (fun acc lst => lst.foldl g acc) b = results.flatten.foldl g b := by
  induction results generalizing b with
  | nil => rfl
  | cons lst rest ih => simp [List.foldl_append, ih]

theorem scoreStep_fold_some (year : Option Int) (l : List Candidate) (c : Candidate) :
    (l.foldl (scoreStep year) (some c, (scoreOf year c : Int))).1 =
      l.foldl (firstArgmaxStep (scoreOf year)) (some c) := by
  induction l generalizing c with
  | nil => rfl
  | cons x xs ih =>
    rw [List.foldl_cons, List.foldl_cons]
    by_cases h : scoreOf year c < scoreOf year x
    · have h' : ((scoreOf year c : Int) < (scoreOf year x : Int)) := by exact_mod_cast h
      simp only [scoreStep, firstArgmaxStep, gt_iff_lt, h, h', if_pos]
      exact ih x
    · have h' : ¬ ((scoreOf year c : Int) < (scoreOf year x : Int)) := by exact_mod_cast h
      simp only [scoreStep, firstArgmaxStep, gt_iff_lt, h, h', if_neg, not_false_iff]
      exact ih c

theorem scoreStep_fold_none (year : Option Int) (l : List Candidate) :
    (l.foldl (scoreStep year) ((none : Option Candidate), (-1 : Int))).1 =
      firstArgmax (scoreOf year) l := by
  cases l with
  | nil => rfl
  | cons c rest =>
    unfold firstArgmax
    rw [List.foldl_cons, List.foldl_cons]
    have h : ((-1 : Int) < (scoreOf year c : Int)) := by
      have := Int.natCast_nonneg (scoreOf year c)
      omega
    have hs : scoreStep year ((none : Option Candidate), (-1 : Int)) c =
        (some c, (scoreOf year c : Int)) := by
      simp [scoreStep, h]
    rw [hs]
    have ha : firstArgmaxStep (scoreOf year) none c = some c := rfl
    rw [ha]
    exact scoreStep_fold_some year rest c

/-- The selector is exactly first-seen argmax over the survivors. -/
theorem search_eq_firstArgmax (showTitle : String) (year : Option Int)
    (skipChannels : List String) (results : List (List Candidate)) :
    search_trailer_on_youtube showTitle year skipChannels results =
      firstArgmax (scoreOf year) (survivors skipChannels showTitle results) := by
  unfold search_trailer_on_youtube survivors
  have hstep : (candStep skipChannels showTitle year) =
      fun b c => if passesFilters skipChannels showTitle c then scoreStep year b c else b := rfl
  rw [foldl_foldl_flatten, hstep, foldl_if_filter]
  exact scoreStep_fold_none year _

theorem firstArgmax_fold_isSome (f : Candidate → Nat) (l : List Candidate) (c : Candidate) :
    (l.foldl (firstArgmaxStep f) (some c)).isSome = true := by
  induction l generalizing c with
  | nil => rfl
  | cons x xs ih =>
    rw [List.foldl_cons]
    have hred : firstArgmaxStep f (some c) x = if f x > f c then some x else some c := rfl
    rw [hred]
    by_cases h : f x > f c
    · rw [if_pos h]; exact ih x
    · rw [if_neg h]; exact ih c

theorem firstArgmax_eq_none_iff (f : Candidate → Nat) (l : List Candidate) :
    firstArgmax f l = none ↔ l = [] := by
  cases l with
  | nil => simp [firstArgmax]
  | cons c rest =>
    unfold firstArgmax
    rw [List.foldl_cons]
    have h1 : firstArgmaxStep f none c = some c := rfl
    rw [h1]
    have h2 := firstArgmax_fold_isSome f rest c
    constructor
    · intro h
      rw [h] at h2
      simp at h2
    · intro h
      exact absurd h (List.cons_ne_nil c rest)

theorem firstArgmax_fold_mem (f : Candidate → Nat) (l : List Candidate)
    (b : Option Candidate) (x : Candidate) (h : l.foldl (firstArgmaxStep f) b = some x) :
    x ∈ l ∨ b = some x := by
  induction l generalizing b with
  | nil => exact Or.inr h
  | cons c cs ih =>
    rw [List.foldl_cons] at h
    rcases ih (firstArgmaxStep f b c) h with hmem | hstep
    · exact Or.inl (List.mem_cons_of_mem c hmem)
    · cases b with
      | none =>
        have hc : some c = some x := hstep
        rw [Option.some.injEq] at hc
        exact Or.inl (hc ▸ List.mem_cons_self c cs)
      | some y =>
        have hred : firstArgmaxStep f (some y) c = if f c > f y then some c else some y := rfl
        rw [hred] at hstep
        by_cases hf : f c > f y
        · rw [if_pos hf, Option.some.injEq] at hstep
          exact Or.inl (hstep ▸ List.mem_cons_self c cs)
        · rw [if_neg hf] at hstep
          exact Or.inr hstep

theorem firstArgmax_mem (f : Candidate → Nat) (l : List Candidate) (x : Candidate)
    (h : firstArgmax f l = some x) : x ∈ l := by
  rcases firstArgmax_fold_mem f l none x h with hmem | hnone
  · exact hmem
  · exact absurd hnone (by simp)

/-- C2: for every show title, optional year, skip-channel list, and fixed
ordered per-variant candidate stream, the selector returns exactly the
first-seen argmax by score over the union of the filter-surviving candidates
across all variants (ties go to the earlier candidate because only a strictly
greater score replaces the running best), and it returns `none` iff no
candidate survives filtering.  Both sides are functions of the stream alone,
so re-running the selection on the same stream yields the same candidate. -/
theorem C2_selector_argmax (showTitle : String) (year : Option Int)
    (skipChannels : List String) (results : List (List Candidate)) :
    search_trailer_on_youtube showTitle year skipChannels results =
      firstArgmax (scoreOf year) (survivors skipChannels showTitle results) ∧
    (search_trailer_on_youtube showTitle year skipChannels results = none ↔
      survivors skipChannels showTitle results = []) := by
  refine ⟨search_eq_firstArgmax showTitle year skipChannels results, ?_⟩
  rw [search_eq_firstArgmax showTitle year skipChannels results]
  exact firstArgmax_eq_none_iff _ _

/-- C4: the selected candidate's lowered title contains none of the denylist
keywords: candidates with a denylisted keyword are filtered out before
scoring, so they can never be selected regardless of score. -/
theorem C4_no_denylisted_selected (showTitle : String) (year : Option Int)
    (skipChannels : List String) (results : List (List Candidate)) (c : Candidate)
    (h : search_trailer_on_youtube showTitle year skipChannels results = some c) :
    ∀ k ∈ avoid_keywords, strContains (lowerStr c.title) k = false := by
  rw [search_eq_firstArgmax showTitle year skipChannels results] at h
  have hmem := firstArgmax_mem _ _ _ h
  unfold survivors at hmem
  rw [List.mem_filter] at hmem
  have hp := hmem.2
  unfold passesFilters at hp
  simp only [Bool.and_eq_true, Bool.not_eq_true'] at hp
  obtain ⟨⟨⟨⟨⟨_, _⟩, _⟩, hk⟩, _⟩, _⟩ := hp
  intro k hkmem
  rw [List.any_eq_false] at hk
  simpa using hk k hkmem

/-- Witness for C4 at a concrete stream on which the selector picks
`goodCandidate`. -/
theorem C4_no_denylisted_selected_witness :
    search_trailer_on_youtube "Foo" none [] [[goodCandidate]] = some goodCandidate ∧
    ∀ k ∈ avoid_keywords, strContains (lowerStr goodCandidate.title) k = false :=
  ⟨by decide, C4_no_denylisted_selected "Foo" none [] [[goodCandidate]] goodCandidate (by decide)⟩

/-- Counterexample to C8 as stated: a known duration of `0` seconds lies
outside `[10, 900]`, so the claim demands rejection, but the code's
truthiness test (`if dur and ...`) lets it pass. -/
theorem C8_counterexample :
    durationRejects (some 0) = false ∧ claimDurationRejects (some 0) = true := by
  constructor
  · decide
  · decide

/-- The token list of the mini-language, in the source dict's order. -/
theorem format_mapping_keys (d : PyDate) :
    (format_mapping d).map Prod.fst =
      ["mmm", "mmmm", "mm", "m", "dddd", "ddd", "dd", "d", "yyyy", "yyy", "yy", "y"] := rfl

/-- C5: the two documented evaluations hold; the pattern list the
substitution iterates over is ordered longest-first (so `mmmm` is tried
before `mm`); no token ever occurs inside a marker, so the two-pass
substitution through markers can never let a replacement collide with a
not-yet-processed token; and the capitalize flag upper-cases the final
rendered result. -/
theorem C5_format_date :
    format_date ⟨2025, 3, 7⟩ "mmmm d, yyyy" true = "MARCH 7, 2025" ∧
    format_date ⟨2025, 3, 7⟩ "yyyy-mm-dd" false = "2025-03-07" ∧
    (∀ d : PyDate, (sortLenDesc ((format_mapping d).map Prod.fst)).Pairwise
      (fun a b => b.length ≤ a.length)) ∧
    (∀ i ∈ List.range 12,
      ∀ p ∈ ["mmm", "mmmm", "mm", "m", "dddd", "ddd", "dd", "d", "yyyy", "yyy", "yy", "y"],
        strContains (markerStr i) p = false) ∧
    (∀ (d : PyDate) (fmt : String), format_date d fmt true =
      (match format_date_core d fmt with
       | some r => upperStr r
       | none => isoOf d)) := by
  refine ⟨by decide, by decide, fun d => ?_, by decide, fun d fmt => ?_⟩
  · rw [format_mapping_keys]
    decide
  · unfold format_date
    cases format_date_core d fmt <;> rfl

/-- C9: `format_date` is a total function (the embedding returns a string on
every input), and whenever the substituted pattern fails to render (the
caught `ValueError`), it returns the original ISO date string unmodified. -/
theorem C9_format_date_fallback (d : PyDate) (fmt : String) (capitalize : Bool)
    (h : format_date_core d fmt = none) :
    format_date d fmt capitalize = isoOf d := by
  unfold format_date
  rw [h]

/-- Witness for C9 at the concrete invalid pattern `"%"` (a trailing bare
percent makes `strftime` raise). -/
theorem C9_format_date_fallback_witness :
    format_date_core ⟨2025, 3, 7⟩ "%" = none ∧
    format_date ⟨2025, 3, 7⟩ "%" true = isoOf ⟨2025, 3, 7⟩ :=
  ⟨by decide, C9_format_date_fallback ⟨2025, 3, 7⟩ "%" true (by decide)⟩

theorem hasKey_cons (p : String × CVal) (rest : List (String × CVal)) (k : String) :
    hasKey (p :: rest) k = (decide (p.1 = k) || hasKey rest k) := rfl

theorem hasKey_append (d e : List (String × CVal)) (k : String) :
    hasKey (d ++ e) k = (hasKey d k || hasKey e k) := by
  simp [hasKey]

theorem dlookup_cons (p : String × CVal) (rest : List (String × CVal)) (k : String) :
    dlookup (p :: rest) k = if p.1 = k then some p.2 else dlookup rest k := by
  obtain ⟨a, b⟩ := p
  rfl

theorem dlookup_append_some (d e : List (String × CVal)) (k : String) (w : CVal)
    (h : dlookup d k = some w) : dlookup (d ++ e) k = some w := by
  induction d with
  | nil => exact absurd h (by simp [dlookup])
  | cons p rest ih =>
    obtain ⟨a, b⟩ := p
    rw [dlookup_cons] at h
    rw [List.cons_append, dlookup_cons]
    by_cases ha : a = k
    · rw [if_pos ha] at h ⊢
      exact h
    · rw [if_neg ha] at h ⊢
      exact ih h

theorem dlookup_append_none (d e : List (String × CVal)) (k : String)
    (h : dlookup d k = none) : dlookup (d ++ e) k = dlookup e k := by
  induction d with
  | nil => rfl
  | cons p rest ih =>
    obtain ⟨a, b⟩ := p
    rw [dlookup_cons] at h
    rw [List.cons_append, dlookup_cons]
    by_cases ha : a = k
    · rw [if_pos ha] at h
      exact absurd h (by simp)
    · rw [if_neg ha] at h ⊢
      exact ih h

theorem dlookup_eq_none_of_not_mem (d : List (String × CVal)) (k : String)
    (h : k ∉ d.map Prod.fst) : dlookup d k = none := by
  induction d with
  | nil => rfl
  | cons p rest ih =>
    obtain ⟨a, b⟩ := p
    rw [List.map_cons, List.mem_cons] at h
    push_neg at h
    have hne : ¬ ((a, b).1 = k) := fun hh => h.1 hh.symm
    rw [dlookup_cons, if_neg hne]
    exact ih h.2

theorem hasKey_eq_false_of_not_mem (d : List (String × CVal)) (k : String)
    (h : k ∉ d.map Prod.fst) : hasKey d k = false := by
  induction d with
  | nil => rfl
  | cons p rest ih =>
    obtain ⟨a, b⟩ := p
    rw [List.map_cons, List.mem_cons] at h
    push_neg at h
    have hne : ¬ ((a, b).1 = k) := fun hh => h.1 hh.symm
    rw [hasKey_cons, ih h.2, decide_eq_false hne, Bool.false_or]

theorem hasKey_eq_isSome (d : List (String × CVal)) (k : String) :
    hasKey d k = (dlookup d k).isSome := by
  induction d with
  | nil => rfl
  | cons p rest ih =>
    obtain ⟨a, b⟩ := p
    rw [hasKey_cons, dlookup_cons]
    by_cases ha : a = k
    · simp [ha]
    · simp [ha, ih]

theorem map_update_id (t : List (String × CVal)) (k : String) (v : CVal)
    (h : k ∉ t.map Prod.fst) :
    t.map (fun q => if q.1 = k then (k, v) else q) = t := by
  induction t with
  | nil => rfl
  | cons q ts ih =>
    obtain ⟨a, b⟩ := q
    rw [List.map_cons, List.mem_cons] at h
    push_neg at h
    have hne : ¬ ((a, b).1 = k) := fun hh => h.1 hh.symm
    rw [List.map_cons, if_neg hne, ih h.2]

theorem dlookup_update_self (d : List (String × CVal)) (k : String) (v : CVal)
    (h : hasKey d k = true) :
    dlookup (d.map fun p => if p.1 = k then (k, v) else p) k = some v := by
  induction d with
  | nil => simp [hasKey] at h
  | cons p rest ih =>
    obtain ⟨a, b⟩ := p
    rw [hasKey_cons] at h
    by_cases ha : a = k
    · have hred : (if (a, b).1 = k then (k, v) else (a, b)) = (k, v) := by simp [ha]
      rw [List.map_cons, hred, dlookup_cons]
      simp
    · simp only [Bool.or_eq_true, decide_eq_true_eq] at h
      have h' : hasKey rest k = true := by
        rcases h with h | h
        · exact absurd h ha
        · exact h
      have hred : (if (a, b).1 = k then (k, v) else (a, b)) = (a, b) := by simp [ha]
      rw [List.map_cons, hred, dlookup_cons, if_neg ha]
      exact ih h'

theorem dlookup_update_ne (d : List (String × CVal)) (k : String) (v : CVal) (k' : String)
    (hne : k' ≠ k) :
    dlookup (d.map fun p => if p.1 = k then (k, v) else p) k' = dlookup d k' := by
  induction d with
  | nil => rfl
  | cons p rest ih =>
    obtain ⟨a, b⟩ := p
    by_cases ha : a = k
    · have hred : (if (a, b).1 = k then (k, v) else (a, b)) = (k, v) := by simp [ha]
      rw [List.map_cons, hred, dlookup_cons, dlookup_cons]
      have h1 : ¬ ((k, v).1 = k') := fun hh => hne hh.symm
      have h2 : ¬ ((a, b).1 = k') := by
        intro hh
        exact hne (by rw [← hh, ha])
      rw [if_neg h1, if_neg h2]
      exact ih
    · have hred : (if (a, b).1 = k then (k, v) else (a, b)) = (a, b) := by simp [ha]
      rw [List.map_cons, hred, dlookup_cons, dlookup_cons]
      by_cases hak : a = k'
      · rw [if_pos hak, if_pos hak]
      · rw [if_neg hak, if_neg hak]
        exact ih

theorem hasKey_update_ne (d : List (String × CVal)) (k : String) (v : CVal) (k' : String)
    (hne : k' ≠ k) :
    hasKey (d.map fun p => if p.1 = k then (k, v) else p) k' = hasKey d k' := by
  induction d with
  | nil => rfl
  | cons p rest ih =>
    obtain ⟨a, b⟩ := p
    by_cases ha : a = k
    · have hred : (if (a, b).1 = k then (k, v) else (a, b)) = (k, v) := by simp [ha]
      rw [List.map_cons, hred, hasKey_cons, hasKey_cons, ih]
      subst ha
      rfl
    · have hred : (if (a, b).1 = k then (k, v) else (a, b)) = (a, b) := by simp [ha]
      rw [List.map_cons, hred, hasKey_cons, hasKey_cons, ih]

theorem dlookup_dinsert_self (d : List (String × CVal)) (k : String) (v : CVal) :
    dlookup (dinsert d k v) k = some v := by
  unfold dinsert
  by_cases h : hasKey d k
  · rw [if_pos h]
    exact dlookup_update_self d k v h
  · rw [if_neg h]
    rw [Bool.not_eq_true] at h
    rw [dlookup_append_none d [(k, v)] k (by
      rw [hasKey_eq_isSome] at h
      exact Option.not_isSome_iff_eq_none.mp (by simp [h]))]
    rw [dlookup_cons]
    simp

theorem dlookup_dinsert_ne (d : List (String × CVal)) (k : String) (v : CVal) (k' : String)
    (hne : k' ≠ k) :
    dlookup (dinsert d k v) k' = dlookup d k' := by
  unfold dinsert
  by_cases h : hasKey d k
  · rw [if_pos h]
    exact dlookup_update_ne d k v k' hne
  · rw [if_neg h]
    cases hl : dlookup d k' with
    | some w => exact dlookup_append_some d [(k, v)] k' w hl
    | none =>
      have hkk : ¬ ((k, v).1 = k') := fun hh => hne hh.symm
      rw [dlookup_append_none d [(k, v)] k' hl, dlookup_cons, if_neg hkk]
      rfl

theorem hasKey_dinsert_ne (d : List (String × CVal)) (k : String) (v : CVal) (k' : String)
    (hne : k' ≠ k) :
    hasKey (dinsert d k v) k' = hasKey d k' := by
  unfold dinsert
  by_cases h : hasKey d k
  · rw [if_pos h]
    exact hasKey_update_ne d k v k' hne
  · rw [if_neg h, hasKey_append]
    have hkk : ¬ ((k, v).1 = k') := fun hh => hne hh.symm
    have h1 : hasKey [(k, v)] k' = false := by
      rw [hasKey_cons, decide_eq_false hkk, Bool.false_or]
      rfl
    rw [h1, Bool.or_false]

theorem filter_update_reserved (d : List (String × CVal)) (k : String) (v : CVal)
    (hk : k ∈ reservedKeys) :
    (d.map fun p => if p.1 = k then (k, v) else p).filter
        (fun p => !(decide (p.1 ∈ reservedKeys))) =
      d.filter (fun p => !(decide (p.1 ∈ reservedKeys))) := by
  induction d with
  | nil => rfl
  | cons p rest ih =>
    obtain ⟨a, b⟩ := p
    by_cases ha : a = k
    · have hred : (if (a, b).1 = k then (k, v) else (a, b)) = (k, v) := by simp [ha]
      rw [List.map_cons, hred, List.filter_cons, List.filter_cons]
      have h1 : (!(decide ((k, v).1 ∈ reservedKeys))) = false := by simp [hk]
      have h2 : (!(decide ((a, b).1 ∈ reservedKeys))) = false := by simp [ha, hk]
      rw [h1, h2]
      simpa using ih
    · have hred : (if (a, b).1 = k then (k, v) else (a, b)) = (a, b) := by simp [ha]
      rw [List.map_cons, hred, List.filter_cons, List.filter_cons, ih]

theorem filter_dinsert_reserved (d : List (String × CVal)) (k : String) (v : CVal)
    (hk : k ∈ reservedKeys) :
    (dinsert d k v).filter (fun p => !(decide (p.1 ∈ reservedKeys))) =
      d.filter (fun p => !(decide (p.1 ∈ reservedKeys))) := by
  unfold dinsert
  by_cases h : hasKey d k
  · rw [if_pos h]
    exact filter_update_reserved d k v hk
  · rw [if_neg h, List.filter_append]
    have : List.filter (fun p => !(decide (p.1 ∈ reservedKeys))) [(k, v)] = [] := by
      simp [List.filter_cons, hk]
    rw [this, List.append_nil]

theorem mOf_cons_summary (b : CVal) (rest : List (String × CVal)) :
    mOf (("summary", b) :: rest) = mOf rest := by
  unfold mOf
  rw [List.filter_cons]
  simp

theorem mOf_cons_other (a : String) (b : CVal) (rest : List (String × CVal))
    (ha : a ≠ "summary") :
    mOf ((a, b) :: rest) = (a, cfgEntryVal (a, b)) :: mOf rest := by
  unfold mOf
  rw [List.filter_cons]
  simp [ha]

theorem hasKey_mOf (cfg : List (String × CVal)) (k : String) (hk : k ≠ "summary") :
    hasKey (mOf cfg) k = hasKey cfg k := by
  induction cfg with
  | nil => rfl
  | cons p rest ih =>
    obtain ⟨a, b⟩ := p
    by_cases ha : a = "summary"
    · subst ha
      have hne : ¬ ((("summary" : String), b).1 = k) := fun hh => hk hh.symm
      rw [mOf_cons_summary, hasKey_cons, ih, decide_eq_false hne, Bool.false_or]
    · rw [mOf_cons_other a b rest ha, hasKey_cons, hasKey_cons, ih]

theorem dlookup_mOf (cfg : List (String × CVal)) (k : String) (hk : k ≠ "summary") :
    dlookup (mOf cfg) k = (dlookup cfg k).map (fun v => cfgEntryVal (k, v)) := by
  induction cfg with
  | nil => rfl
  | cons p rest ih =>
    obtain ⟨a, b⟩ := p
    by_cases ha : a = "summary"
    · subst ha
      have hne : ¬ ((("summary" : String), b).1 = k) := fun hh => hk hh.symm
      rw [mOf_cons_summary, dlookup_cons, if_neg hne, ih]
    · rw [mOf_cons_other a b rest ha, dlookup_cons, dlookup_cons]
      by_cases hak : a = k
      · subst hak
        simp
      · rw [if_neg hak, if_neg hak, ih]

theorem dinsert_head_update (k : String) (s v : CVal) (t : List (String × CVal))
    (hsum : k ∉ t.map Prod.fst) :
    dinsert ((k, s) :: t) k v = (k, v) :: t := by
  unfold dinsert
  have hk1 : hasKey ((k, s) :: t) k = true := by
    rw [hasKey_cons, decide_eq_true (rfl : k = k)]
    rfl
  rw [if_pos hk1, List.map_cons, if_pos (rfl : (k, s).1 = k), map_update_id t k v hsum]

theorem dinsert_append_fresh (d : List (String × CVal)) (k : String) (v : CVal)
    (h : hasKey d k = false) :
    dinsert d k v = d ++ [(k, v)] := by
  unfold dinsert
  rw [h]
  simp

theorem filter_mOf (cfg : List (String × CVal)) :
    (mOf cfg).filter (fun p => !(decide (p.1 ∈ reservedKeys))) =
      cfg.filter (fun p => !(decide (p.1 ∈ reservedKeys))) := by
  induction cfg with
  | nil => rfl
  | cons p rest ih =>
    obtain ⟨a, b⟩ := p
    by_cases ha : a = "summary"
    · subst ha
      have hcond : (!(decide ((("summary" : String), b).1 ∈ reservedKeys))) = false := rfl
      rw [mOf_cons_summary, ih, List.filter_cons, hcond]
      simp
    · rw [mOf_cons_other a b rest ha, List.filter_cons, List.filter_cons]
      by_cases hres : a ∈ reservedKeys
      · have hc1 : (!(decide ((a, cfgEntryVal (a, b)).1 ∈ reservedKeys))) = false := by
          have hd : decide ((a, cfgEntryVal (a, b)).1 ∈ reservedKeys) = true :=
            decide_eq_true hres
          rw [hd]
          rfl
        have hc2 : (!(decide ((a, b).1 ∈ reservedKeys))) = false := by
          have hd : decide ((a, b).1 ∈ reservedKeys) = true := decide_eq_true hres
          rw [hd]
          rfl
        rw [hc1]
        simpa using ih
      · have hst : a ≠ "sort_title" := by
          intro hh
          rw [hh] at hres
          exact hres (by decide)
        have hval : cfgEntryVal (a, b) = b := by
          unfold cfgEntryVal
          rw [if_neg hst]
        have hc1 : (!(decide ((a, cfgEntryVal (a, b)).1 ∈ reservedKeys))) = true := by
          have hd : decide ((a, cfgEntryVal (a, b)).1 ∈ reservedKeys) = false :=
            decide_eq_false hres
          rw [hd]
          rfl
        have hc2 : (!(decide ((a, b).1 ∈ reservedKeys))) = true := by
          have hd : decide ((a, b).1 ∈ reservedKeys) = false := decide_eq_false hres
          rw [hd]
          rfl
        rw [hc1, hval, ih]

theorem fold_dinsert_char (cfg : List (String × CVal)) (s : CVal)
    (t : List (String × CVal))
    (hnodup : (cfg.map Prod.fst).Nodup)
    (hdisj : ∀ k ∈ t.map Prod.fst, k ∉ cfg.map Prod.fst)
    (hsum : "summary" ∉ t.map Prod.fst) :
    cfg.foldl (fun dacc p => dinsert dacc p.1 (cfgEntryVal p)) (("summary", s) :: t) =
      ("summary", (dlookup cfg "summary").getD s) :: (t ++ mOf cfg) := by
  induction cfg generalizing s t with
  | nil => simp [mOf, dlookup]
  | cons p rest ih =>
    obtain ⟨a, b⟩ := p
    rw [List.map_cons, List.nodup_cons] at hnodup
    rw [List.foldl_cons]
    by_cases ha : a = "summary"
    · subst ha
      have hstep : dinsert (("summary", s) :: t) ("summary", b).1 (cfgEntryVal ("summary", b)) =
          ("summary", b) :: t := dinsert_head_update "summary" s b t hsum
      rw [hstep]
      rw [ih b t hnodup.2 (fun k hk => fun hmem => hdisj k hk (List.mem_cons_of_mem _ hmem)) hsum]
      rw [mOf_cons_summary, dlookup_cons, if_pos rfl]
      rw [dlookup_eq_none_of_not_mem rest "summary" hnodup.1]
      rfl
    · have hnk : hasKey (("summary", s) :: t) (a, b).1 = false := by
        have hne : ¬ ((("summary" : String), s).1 = a) := fun hh => ha hh.symm
        have h2 : hasKey t a = false := by
          apply hasKey_eq_false_of_not_mem
          intro hmem
          exact hdisj a hmem (List.mem_cons.mpr (Or.inl rfl))
        rw [hasKey_cons, decide_eq_false hne, h2]
        rfl
      have hstep : dinsert (("summary", s) :: t) (a, b).1 (cfgEntryVal (a, b)) =
          ("summary", s) :: (t ++ [(a, cfgEntryVal (a, b))]) := by
        rw [dinsert_append_fresh _ _ _ hnk, List.cons_append]
      rw [hstep]
      have hdisj' : ∀ k ∈ (t ++ [(a, cfgEntryVal (a, b))]).map Prod.fst,
          k ∉ rest.map Prod.fst := by
        intro k hk
        rw [List.map_append, List.mem_append] at hk
        rcases hk with hk | hk
        · intro hmem
          exact hdisj k hk (List.mem_cons.mpr (Or.inr hmem))
        · rw [List.map_cons, List.map_nil, List.mem_singleton] at hk
          subst hk
          exact hnodup.1
      have hsum' : "summary" ∉ (t ++ [(a, cfgEntryVal (a, b))]).map Prod.fst := by
        rw [List.map_append, List.mem_append]
        push_neg
        refine ⟨hsum, ?_⟩
        rw [List.map_cons, List.map_nil, List.mem_singleton]
        intro hmem
        exact ha hmem.symm
      rw [ih s (t ++ [(a, cfgEntryVal (a, b))]) hnodup.2 hdisj' hsum']
      rw [mOf_cons_other a b rest ha, dlookup_cons, if_neg ha]
      rw [List.append_assoc]
      rfl

theorem collectionBody_eq_spec (cfg : List (String × CVal)) (summary idsStr : String)
    (h : (cfg.map Prod.fst).Nodup) :
    collectionBody cfg summary idsStr = spec_collection_body cfg summary idsStr := by
  have hfold : cfg.foldl (fun dacc p => dinsert dacc p.1 (cfgEntryVal p))
      [("summary", CVal.str summary)] =
      ("summary", (dlookup cfg "summary").getD (CVal.str summary)) :: mOf cfg := by
    have hh := fold_dinsert_char cfg (CVal.str summary) [] h (by simp) (by simp)
    simpa using hh
  have hc : cdataOf cfg summary idsStr =
      dinsert (dinsert (("summary", (dlookup cfg "summary").getD (CVal.str summary)) :: mOf cfg)
        "sync_mode" (CVal.str "sync")) "tvdb_show" (CVal.str idsStr) := by
    unfold cdataOf
    rw [hfold]
  have hA : dlookup (cdataOf cfg summary idsStr) "summary" =
      some ((dlookup cfg "summary").getD (CVal.str summary)) := by
    rw [hc, dlookup_dinsert_ne _ _ _ _ (by decide), dlookup_dinsert_ne _ _ _ _ (by decide),
      dlookup_cons, if_pos rfl]
  have hne : ¬ (("summary" : String) = "sort_title") := by decide
  have hB : hasKey (cdataOf cfg summary idsStr) "sort_title" = hasKey cfg "sort_title" := by
    rw [hc, hasKey_dinsert_ne _ _ _ _ (by decide), hasKey_dinsert_ne _ _ _ _ (by decide),
      hasKey_cons, hasKey_mOf cfg _ (by decide), decide_eq_false hne, Bool.false_or]
  have hC : dlookup (cdataOf cfg summary idsStr) "sort_title" =
      (dlookup cfg "sort_title").map (fun w => cfgEntryVal ("sort_title", w)) := by
    rw [hc, dlookup_dinsert_ne _ _ _ _ (by decide), dlookup_dinsert_ne _ _ _ _ (by decide),
      dlookup_cons, if_neg hne]
    exact dlookup_mOf cfg _ (by decide)
  have hD : dlookup (cdataOf cfg summary idsStr) "sync_mode" = some (CVal.str "sync") := by
    rw [hc, dlookup_dinsert_ne _ _ _ _ (by decide), dlookup_dinsert_self]
  have hE : dlookup (cdataOf cfg summary idsStr) "tvdb_show" = some (CVal.str idsStr) := by
    rw [hc, dlookup_dinsert_self]
  have hF : (cdataOf cfg summary idsStr).filter (fun p => !(decide (p.1 ∈ reservedKeys))) =
      cfg.filter (fun p => !(decide (p.1 ∈ reservedKeys))) := by
    rw [hc, filter_dinsert_reserved _ _ _ (by decide), filter_dinsert_reserved _ _ _ (by decide),
      List.filter_cons]
    have hcond : (!(decide ((("summary" : String),
        (dlookup cfg "summary").getD (CVal.str summary)).1 ∈ reservedKeys))) = false := rfl
    rw [hcond]
    simpa using filter_mOf cfg
  unfold collectionBody spec_collection_body
  rw [hA, hB, hC, hD, hE, hF]
  cases hst : dlookup cfg "sort_title" with
  | none =>
    have hk : hasKey cfg "sort_title" = false := by
      rw [hasKey_eq_isSome, hst]
      rfl
    rw [hk]
    simp
  | some w =>
    have hk : hasKey cfg "sort_title" = true := by
      rw [hasKey_eq_isSome, hst]
      rfl
    rw [hk]
    have hval : cfgEntryVal ("sort_title", w) = quoteVal w := by
      unfold cfgEntryVal
      rw [if_pos rfl]
    simp [hval]

/-- C3 (amended): for every non-empty show list with at least one truthy
external id and duplicate-free collection-config keys, the document is
`collections: {name: body}` with no other top-level key, and the body's keys
appear strictly in this order: `summary` — holding the templated
horizon-days string *unless the config section itself defines a `summary`
key, whose value then wins* — then `sort_title` (only if present in the
config, rendered as an explicitly double-quoted string), then every other
remaining config key in original relative order *except ones named
`summary`, `sort_title`, `sync_mode` or `tvdb_show`* (and excluding the
popped `collection_name`), then `sync_mode: "sync"`, then `tvdb_show` with
the comma-joined sorted ids.  (The original claim fixed the summary value to
the templated string for every config; a config defining its own `summary`
overrides it.) -/
theorem C3_collection_doc_amended (shows : List TvShow) (config : KometaConfig)
    (h1 : shows ≠ []) (h2 : truthyTvdbIds shows ≠ [])
    (h3 : ((collectionCfgOf config).map Prod.fst).Nodup) :
    create_collection_yaml shows config =
      YVal.map [("collections", YVal.map [(collectionNameOf config,
        YVal.map (liftScalars (spec_collection_body (collectionCfgOf config)
          (summaryOf config) (tvdbIdsStrOf shows))))])] := by
  unfold create_collection_yaml
  rw [if_neg h1, if_neg h2, collectionBody_eq_spec _ _ _ h3]

/-- Witness for C3's amended theorem at a concrete show list and config. -/
theorem C3_collection_doc_amended_witness :
    [exShow] ≠ ([] : List TvShow) ∧ truthyTvdbIds [exShow] ≠ [] ∧
    ((collectionCfgOf exConfigPlain).map Prod.fst).Nodup ∧
    create_collection_yaml [exShow] exConfigPlain =
      YVal.map [("collections", YVal.map [(collectionNameOf exConfigPlain,
        YVal.map (liftScalars (spec_collection_body (collectionCfgOf exConfigPlain)
          (summaryOf exConfigPlain) (tvdbIdsStrOf [exShow]))))])] :=
  ⟨by decide, by decide, by decide,
    C3_collection_doc_amended [exShow] exConfigPlain (by decide) (by decide) (by decide)⟩

/-- Counterexample to C3 as stated: with a collection config section
`{summary: "custom"}` and one show carrying id 5, the emitted body's
`summary` key holds `"custom"`, not the templated horizon string the claim
requires. -/
theorem C3_counterexample :
    create_collection_yaml [exShow] exConfigSummary =
      YVal.map [("collections", YVal.map [("Upcoming Shows", YVal.map
        [("summary", YVal.scalar (CVal.str "custom")),
         ("sync_mode", YVal.scalar (CVal.str "sync")),
         ("tvdb_show", YVal.scalar (CVal.str "5"))])])] ∧
    "custom" ≠ "Shows with their first episode premiering within 30 days" :=
  ⟨rfl, by decide⟩

/-- C8 (amended): the duration filter rejects a candidate iff its duration is
known, nonzero, and outside the closed interval `[10, 900]` seconds; an
unknown duration — and, by Python truthiness, a zero duration — always
passes. -/
theorem C8_duration_filter_amended (dur : Option Int) :
    durationRejects dur = true ↔ ∃ d, dur = some d ∧ d ≠ 0 ∧ (d < 10 ∨ 900 < d) := by
  cases dur with
  | none => simp [durationRejects]
  | some d =>
    simp only [durationRejects, Bool.and_eq_true, decide_eq_true_eq, Bool.not_eq_true',
      Bool.and_eq_false_iff, decide_eq_false_iff_not, Option.some.injEq]
    constructor
    · rintro ⟨h0, h1⟩
      refine ⟨d, rfl, h0, ?_⟩
      rcases h1 with h | h
      · exact Or.inl (by omega)
      · exact Or.inr (by omega)
    · rintro ⟨e, he, h0, h1⟩
      cases he
      refine ⟨h0, ?_⟩
      rcases h1 with h | h
      · exact Or.inl (by omega)
      · exact Or.inr (by omega)
